import Mathlib

/-!
Verification development for the `saver_bot` crate (src/src/lib.rs,
src/src/utils/mod.rs, src/bin/src/main.rs): a shallow embedding of the
decision-and-navigation controller of the foraging/banking agent, together
with theorems settling the behavioural claims about it.

Modelling conventions, fixed once for the whole file:

* Coordinates are `Nat × Nat` (Rust `usize` pairs `(row, col)`).  Where the
  source performs `usize` arithmetic that can wrap (`x + i - 1` around the
  3×3 window), the wrap at `2^64` is made explicit through `uadd`/`usub`;
  the cast `i32 as usize` is `usizeOfInt`.
* `ChartedMap<Content>` (external charting tool) is only ever used with the
  single key `Content::Bank(0..0)`; it is embedded as the list of charted
  coordinates: `cmSave` is the membership-idempotent insert (the tool stores
  one entry per coordinate and bumps a counter on re-save), `cmRemove`
  deletes a coordinate's entry.
* `Content` in `robotics_lib` compares by variant only (its `PartialEq`
  ignores the payload, and `to_default` erases it), so contents are embedded
  as a payload-free enumeration `ContentB`.
* World-dependent collaborator calls (`where_am_i`, `go`, `put`, `destroy`,
  the DestroyZone / SearchTool / recycle / Asphaltinator tools) enter as
  oracle parameters collected in `TickO`; each oracle's result type is
  restricted to the embodiment-owned fields (position, energy, backpack
  counts, and — for the searching helpers — the free-bank chart) that the
  corresponding interface can actually mutate.  The repository's own
  mutations of `free_banks`, `filled_banks`, `used_banks`, `saved` and the
  behaviour state are embedded exactly from the source.
* The `seen` vector, `timer`, audio tool and debug printing influence no
  modelled claim and are omitted from the embedded state.
-/

namespace SaverBot

/-- Behaviour states of the bot (enum `State`, src/src/lib.rs lines 42-50). -/
inductive StateB
  | CoinCollecting
  | RockCollecting
  | Trading
  | Saving
  | Enjoying
  | BankSearching
  | Finish
deriving DecidableEq, Repr

/-- Movement directions of `robotics_lib::interface::Direction`. -/
inductive Direction
  | Up
  | Down
  | Left
  | Right
deriving DecidableEq, Repr

/-- Tile contents, by variant only (robotics_lib `Content` compares by
variant and `to_default` erases payloads). -/
inductive ContentB
  | Coin
  | Rock
  | Garbage
  | Tree
  | Fish
  | Bank
  | Other
deriving DecidableEq, Repr

/-- Contents hunted while coin collecting (utils `COIN_LOOKING_FOR`). -/
def COIN_LOOKING_FOR : List ContentB := [.Coin, .Rock, .Garbage, .Tree, .Fish]

/-- Contents hunted while rock collecting (utils `ROCK_LOOKING_FOR`). -/
def ROCK_LOOKING_FOR : List ContentB := [.Rock]

/-- Contents hunted while bank searching (utils `BANK_LOOKING_FOR`). -/
def BANK_LOOKING_FOR : List ContentB := [.Bank]

/-- Wrap modulus of Rust `usize` on the 64-bit targets the crate builds for. -/
def USZ : Nat := 2 ^ 64

/-- Rust `usize` addition (wrapping at `2^64`). -/
def uadd (a b : Nat) : Nat := (a + b) % USZ

/-- Rust `usize` subtraction (wrapping at `2^64`), for the window arithmetic
`x + i - 1` of the source. -/
def usub (a b : Nat) : Nat := (a + USZ - b) % USZ

/-- Rust `i32 as usize` cast (sign-extend, then reinterpret at 64 bits). -/
def usizeOfInt (i : Int) : Nat := (i % (USZ : Int)).toNat

/-- A charted bank set: the coordinates stored under the `Content::Bank`
key of a `ChartedMap<Content>`. -/
abbrev Banks : Type := List (Nat × Nat)

/-- `ChartedMap::save` for the bank key: one entry per coordinate, so on the
level of membership it is insert-if-absent. -/
def cmSave (m : Banks) (c : Nat × Nat) : Banks :=
  if c ∈ m then m else c :: m

/-- `ChartedMap::remove` for the bank key: delete the coordinate's entry. -/
def cmRemove (m : Banks) (c : Nat × Nat) : Banks :=
  List.filter (fun d => decide (d ≠ c)) m

theorem mem_cmSave {m : Banks} {c d : Nat × Nat} :
    d ∈ cmSave m c ↔ d ∈ m ∨ d = c := by
  unfold cmSave
  split
  · exact ⟨Or.inl, fun h => h.elim id (fun e => e ▸ ‹c ∈ m›)⟩
  · constructor
    · intro h
      rcases List.mem_cons.mp h with h | h
      · exact Or.inr h
      · exact Or.inl h
    · intro h
      rcases h with h | h
      · exact List.mem_cons.mpr (Or.inr h)
      · exact List.mem_cons.mpr (Or.inl h)

theorem not_mem_cmRemove {m : Banks} {c : Nat × Nat} : c ∉ cmRemove m c := by
  intro h
  have := List.of_mem_filter h
  simp at this

theorem mem_of_mem_cmRemove {m : Banks} {c d : Nat × Nat} (h : d ∈ cmRemove m c) :
    d ∈ m := List.mem_of_mem_filter h

/-- A 3×3 sensing window as returned by `where_am_i`: the tile content (if
any) at window cell `(i, j)`, `i, j < 3`.  Tiles are represented by their
content, the only field the embedded code inspects. -/
abbrev Window : Type := Nat → Nat → Option ContentB

/-- Row-major enumeration of the 3×3 window cells, matching the nested
`for i in 0..3 { for j in 0..3 { ... } }` loops of the source. -/
def cells3 : List (Nat × Nat) :=
  [(0, 0), (0, 1), (0, 2), (1, 0), (1, 1), (1, 2), (2, 0), (2, 1), (2, 2)]

/-- The fold underlying `look_for_unknown_banks` (src/src/lib.rs lines
499-514): scan the window cells in row-major order and chart every visible
bank whose world coordinate `(x + i - 1, y + j - 1)` is not in the snapshot
`seend` of already-charted free-bank coordinates. -/
def lookFold (w : Window) (x y : Nat) (seend : Banks) (l : List (Nat × Nat))
    (acc : Banks) : Banks :=
  l.foldl
    (fun acc ij =>
      match w ij.1 ij.2 with
      | some ContentB.Bank =>
        if (usub (uadd x ij.1) 1, usub (uadd y ij.2) 1) ∈ seend then acc
        else cmSave acc (usub (uadd x ij.1) 1, usub (uadd y ij.2) 1)
      | _ => acc)
    acc

/-- `look_for_unknown_banks` (src/src/lib.rs lines 487-515), restricted to
its effect on `free_banks`: the dedup snapshot `seend_coord` is built from
`free_banks` only — `filled_banks` is never consulted. -/
def look_for_unknown_banks (w : Window) (x y : Nat) (free : Banks) : Banks :=
  lookFold w x y free cells3 free

/-- The bank coordinates visible in a window from position `(x, y)` — the
coordinates `look_for_unknown_banks` may chart. -/
def bankCellCoords (w : Window) (x y : Nat) : List (Nat × Nat) :=
  (cells3.filter (fun ij => decide (w ij.1 ij.2 = some ContentB.Bank))).map
    (fun ij => (usub (uadd x ij.1) 1, usub (uadd y ij.2) 1))

theorem mem_lookFold {w : Window} {x y : Nat} {seend : Banks}
    {l : List (Nat × Nat)} {acc : Banks} {c : Nat × Nat}
    (h : c ∈ lookFold w x y seend l acc) :
    c ∈ acc ∨ c ∈ l.map (fun ij => (usub (uadd x ij.1) 1, usub (uadd y ij.2) 1)) := by
  induction l generalizing acc with
  | nil => exact Or.inl h
  | cons ij t ih =>
    have h' : c ∈ lookFold w x y seend t
        (match w ij.1 ij.2 with
         | some ContentB.Bank =>
           if (usub (uadd x ij.1) 1, usub (uadd y ij.2) 1) ∈ seend then acc
           else cmSave acc (usub (uadd x ij.1) 1, usub (uadd y ij.2) 1)
         | _ => acc) := h
    rcases ih h' with hacc | htail
    · match hw : w ij.1 ij.2 with
      | some ContentB.Bank =>
        rw [hw] at hacc
        by_cases hs : (usub (uadd x ij.1) 1, usub (uadd y ij.2) 1) ∈ seend
        · rw [if_pos hs] at hacc
          exact Or.inl hacc
        · rw [if_neg hs] at hacc
          rcases mem_cmSave.mp hacc with hacc | heq
          · exact Or.inl hacc
          · exact Or.inr (List.mem_map.mpr ⟨ij, List.mem_cons_self _ _, heq.symm⟩)
      | some ContentB.Coin => rw [hw] at hacc; exact Or.inl hacc
      | some ContentB.Rock => rw [hw] at hacc; exact Or.inl hacc
      | some ContentB.Garbage => rw [hw] at hacc; exact Or.inl hacc
      | some ContentB.Tree => rw [hw] at hacc; exact Or.inl hacc
      | some ContentB.Fish => rw [hw] at hacc; exact Or.inl hacc
      | some ContentB.Other => rw [hw] at hacc; exact Or.inl hacc
      | none => rw [hw] at hacc; exact Or.inl hacc
    · exact Or.inr (List.mem_map.mpr
        (by rcases List.mem_map.mp htail with ⟨ij', hij', he⟩
            exact ⟨ij', List.mem_cons_of_mem _ hij', he⟩))

theorem mem_look_for_unknown_banks {w : Window} {x y : Nat} {free : Banks}
    {c : Nat × Nat} (h : c ∈ look_for_unknown_banks w x y free) :
    c ∈ free ∨ c ∈ cells3.map (fun ij => (usub (uadd x ij.1) 1, usub (uadd y ij.2) 1)) :=
  mem_lookFold h

/-- The bank-merging block of `wander_in_seach_of` (src/src/lib.rs lines
567-578): for each coordinate the search tool found, the current free-bank
chart is scanned and the coordinate is saved once per charted coordinate
differing from it — on the level of membership, it is inserted exactly when
some differing coordinate is already charted (in particular, nothing is ever
merged into an empty chart). -/
def wanderMergeBanks (free : Banks) (found : List (Nat × Nat)) : Banks :=
  found.foldl
    (fun acc pos =>
      if acc.any (fun c => decide (c ≠ pos)) then cmSave acc pos
      else acc)
    free

theorem mem_wanderMergeBanks {free : Banks} {found : List (Nat × Nat)}
    {c : Nat × Nat} (h : c ∈ wanderMergeBanks free found) :
    c ∈ free ∨ c ∈ found := by
  induction found generalizing free with
  | nil => exact Or.inl h
  | cons pos t ih =>
    have h' : c ∈ wanderMergeBanks
        (if free.any (fun d => decide (d ≠ pos)) then cmSave free pos else free) t := h
    rcases ih h' with hacc | ht
    · by_cases hany : free.any (fun d => decide (d ≠ pos)) = true
      · rw [if_pos hany] at hacc
        rcases mem_cmSave.mp hacc with hf | he
        · exact Or.inl hf
        · exact Or.inr (he ▸ List.mem_cons_self _ _)
      · rw [if_neg hany] at hacc
        exact Or.inl hacc
    · exact Or.inr (List.mem_cons_of_mem _ ht)

/-- `closest_bank` (src/src/lib.rs lines 604-622): a linear scan over the
charted free banks keeping the first coordinate of Manhattan distance
strictly below the running minimum, which starts at `1000` with the default
answer `(0, 0)`.  There is no `none` case: an empty chart (and likewise a
chart whose banks all lie at distance `≥ 1000`) yields `(0, 0)`. -/
def closest_bank (free : Banks) (p : Nat × Nat) : Nat × Nat :=
  (free.foldl
    (fun acc coord =>
      let dist : Int :=
        ((((coord.1 : Int) - (p.1 : Int)).natAbs +
          ((coord.2 : Int) - (p.2 : Int)).natAbs : Nat) : Int)
      if dist < acc.2 then (coord, dist) else acc)
    ((0, 0), (1000 : Int))).1

/-- The offset list of `destroy_area`'s landmark-adjacency scan
(src/src/lib.rs line 394), verbatim: `(1, -1)` appears twice, `(1, 1)` is
absent, and the centre `(0, 0)` is present. -/
def directs : List (Int × Int) :=
  [(-1, -1), (-1, 0), (-1, 1), (0, -1), (0, 0), (0, 1), (1, -1), (1, 0), (1, -1)]

/-- The bank-coordinate list `banks_points` built by `destroy_area`
(src/src/lib.rs lines 382-392): the free chart's coordinates followed by the
filled chart's. -/
def banksPoints (free filled : Banks) : List (Nat × Nat) :=
  free ++ filled

/-- The safety flag `good` of `destroy_area` (src/src/lib.rs lines 393-401):
`true` iff no charted bank lies at any offset of `directs` from the agent at
`(x, y)` (coordinates cast `usize → i32` and back as in the source). -/
def destroyAreaGood (bp : List (Nat × Nat)) (x y : Int) : Bool :=
  directs.all (fun d => !(decide ((usizeOfInt (x + d.1), usizeOfInt (y + d.2)) ∈ bp)))

/-- Spatial-memory state for the landmark-bookkeeping claims: the two bank
charts of the bot (`free_banks`, `filled_banks`), both created empty. -/
structure BankMem where
  free : Banks
  filled : Banks
deriving DecidableEq, Repr

/-- The landmark-recording / mark-filled operations the code performs on the
two bank charts:
* `record w x y` — a `look_for_unknown_banks` pass over window `w` from
  position `(x, y)` (src/src/lib.rs lines 487-515);
* `merge found` — the bank-merging block of `wander_in_seach_of` on the
  coordinates `found` returned by the search tool (lines 567-578);
* `fill c` — the zero-accepted branch of `save` (lines 651-654) acting on
  the coordinate `c` it resolved via `closest_bank` at entry (kept as a
  parameter because navigation between that resolution and the deposit may
  itself alter the free chart). -/
inductive BankOp
  | record (w : Window) (x y : Nat)
  | merge (found : List (Nat × Nat))
  | fill (c : Nat × Nat)

/-- One landmark-bookkeeping operation, exactly as the source mutates the
two charts. -/
def applyBankOp (m : BankMem) : BankOp → BankMem
  | .record w x y => { m with free := look_for_unknown_banks w x y m.free }
  | .merge found => { m with free := wanderMergeBanks m.free found }
  | .fill c => { free := cmRemove m.free c, filled := cmSave m.filled c }

/-- Run a sequence of landmark-bookkeeping operations. -/
def runBankOps (ops : List BankOp) (m : BankMem) : BankMem :=
  ops.foldl applyBankOp m

/-- Decidable disjointness of the two bank charts. -/
def banksDisjointB (m : BankMem) : Bool :=
  m.free.all (fun c => !(decide (c ∈ m.filled)))

/-- The coordinates an operation may newly chart as free. -/
def opInsertable : BankOp → List (Nat × Nat)
  | .record _ x y => cells3.map (fun ij => (usub (uadd x ij.1) 1, usub (uadd y ij.2) 1))
  | .merge found => found
  | .fill _ => []

/-- A run is safe when no operation records a coordinate that is already
marked filled at the moment it executes. -/
def safeOps (m : BankMem) : List BankOp → Bool
  | [] => true
  | op :: rest =>
    (opInsertable op).all (fun c => !(decide (c ∈ m.filled))) &&
      safeOps (applyBankOp m op) rest

theorem banksDisjointB_iff {m : BankMem} :
    banksDisjointB m = true ↔ ∀ c ∈ m.free, c ∉ m.filled := by
  unfold banksDisjointB
  simp [List.all_eq_true]

theorem applyBankOp_disjoint {m : BankMem} {op : BankOp}
    (hd : banksDisjointB m = true)
    (hs : (opInsertable op).all (fun c => !(decide (c ∈ m.filled))) = true) :
    banksDisjointB (applyBankOp m op) = true := by
  have hd' := banksDisjointB_iff.mp hd
  have hs' : ∀ c ∈ opInsertable op, c ∉ m.filled := by
    intro c hc
    have := List.all_eq_true.mp hs c hc
    simpa using this
  apply banksDisjointB_iff.mpr
  match op with
  | .record _w x y =>
    intro c hc
    rcases mem_look_for_unknown_banks hc with hf | hr
    · exact hd' c hf
    · exact hs' c hr
  | .merge found =>
    intro c hc
    rcases mem_wanderMergeBanks hc with hf | hr
    · exact hd' c hf
    · exact hs' c hr
  | .fill b =>
    intro c hc hcf
    rcases mem_cmSave.mp hcf with hcf | hcb
    · exact hd' c (mem_of_mem_cmRemove hc) hcf
    · exact not_mem_cmRemove (hcb ▸ hc)

/-- A sensing window showing a bank in cell `(1, 2)` — seen from position
`(5, 4)`, that bank sits at world coordinate `(5, 5)`. -/
def w1 : Window := fun i j => if i = 1 ∧ j = 2 then some ContentB.Bank else none

/-- Chart the bank at `(5, 5)`, mark it filled through a zero-accepted
deposit, then walk past it again: `look_for_unknown_banks` re-charts it as
free because its dedup snapshot is built from `free_banks` only. -/
def opsCexC1 : List BankOp :=
  [.record w1 5 4, .fill (5, 5), .record w1 5 4]

/-- C1 counterexample: the claimed Free/Filled disjointness invariant fails
on the code.  Starting from the empty charts, after charting the bank at
`(5, 5)`, filling it via the zero-accepted branch of `save`, and then
observing it again with `look_for_unknown_banks`, the coordinate `(5, 5)` is
a member of both charts. -/
theorem bank_charts_overlap_cex :
    banksDisjointB (runBankOps opsCexC1 ⟨[], []⟩) = false ∧
      (5, 5) ∈ (runBankOps opsCexC1 ⟨[], []⟩).free ∧
      (5, 5) ∈ (runBankOps opsCexC1 ⟨[], []⟩).filled := by decide

/-- C1 (amended): for every sequence of landmark-recording and mark-filled
operations (`look_for_unknown_banks`, the bank-merging block of
`wander_in_seach_of`, and the zero-accepted branch of `save`) in which no
operation records a coordinate that is already marked filled when it runs,
no coordinate is ever simultaneously a member of both the free and the
filled chart.  (Without that proviso the invariant fails, because the
recording operations deduplicate only against the free chart.) -/
theorem bank_charts_disjoint_of_safe (ops : List BankOp) (m : BankMem)
    (hd : banksDisjointB m = true) (hs : safeOps m ops = true) :
    banksDisjointB (runBankOps ops m) = true := by
  induction ops generalizing m with
  | nil => exact hd
  | cons op rest ih =>
    have h1 : (opInsertable op).all (fun c => !(decide (c ∈ m.filled))) = true :=
      (Bool.and_eq_true _ _).mp hs |>.1
    have h2 : safeOps (applyBankOp m op) rest = true :=
      (Bool.and_eq_true _ _).mp hs |>.2
    exact ih (applyBankOp m op) (applyBankOp_disjoint hd h1) h2

/-- A safe operation sequence: chart the bank at `(5, 5)`, then fill it. -/
def opsWitC1 : List BankOp := [.record w1 5 4, .fill (5, 5)]

/-- Witness for the amended C1 theorem at a concrete safe sequence. -/
theorem bank_charts_disjoint_of_safe_witness :
    (banksDisjointB ⟨[], []⟩ = true ∧ safeOps ⟨[], []⟩ opsWitC1 = true) ∧
      banksDisjointB (runBankOps opsWitC1 ⟨[], []⟩) = true :=
  ⟨⟨by decide, by decide⟩,
    bank_charts_disjoint_of_safe opsWitC1 ⟨[], []⟩ (by decide) (by decide)⟩

/-- C4: the landmark-adjacency scan of `destroy_area` is defective.  With
the agent at `(5, 5)` and a known free bank at the south-east diagonal
neighbour `(6, 6)` (Chebyshev-distance-1 offset `(1, 1)`), the safety flag
stays `true` and indiscriminate harvesting proceeds, because the offset list
repeats `(1, -1)` and omits `(1, 1)`; moreover a bank on the agent's own
tile `(5, 5)` (the centre, which the claim excludes) does flip the flag to
`false`. -/
theorem destroy_area_offsets_defect :
    destroyAreaGood (banksPoints [(6, 6)] []) 5 5 = true ∧
      destroyAreaGood (banksPoints [(5, 5)] []) 5 5 = false := by decide

/-- C7 counterexample: the nearest-free-bank lookup does not return "none"
on an empty free chart — it is total and yields the default coordinate
`(0, 0)` (here for the agent at `(5, 5)`). -/
theorem closest_bank_empty_cex :
    closest_bank ([] : Banks) (5, 5) = (0, 0) := rfl

/-- C7 (amended): when the free chart is empty, `closest_bank` returns the
sentinel coordinate `(0, 0)` for every agent position; the lookup has no
"none" result — callers guard on chart emptiness separately. -/
theorem closest_bank_empty (p : Nat × Nat) :
    closest_bank ([] : Banks) p = (0, 0) := rfl

/-- The part of the robot state `reach_position` touches: position and
energy level. -/
structure NavState where
  pos : Nat × Nat
  energy : Nat
deriving DecidableEq, Repr

/-- Oracle for the `go` interface of `robotics_lib`: given the current
navigation state and a direction, either the post-move state (success: the
move happened and its energy cost was charged) or `none` (failure: the robot
is blocked or lacks energy, and nothing changes). -/
abbrev GoFn : Type := NavState → Direction → Option NavState

/-- The effect of a `let _ = go(self, world, d)` call: on failure the state
is unchanged. -/
def applyGo (g : GoFn) (s : NavState) (d : Direction) : NavState :=
  (g s d).getD s

/-- Fuel-indexed while loop: run `step` while `guard` holds, at most `n`
times.  The source's `while` loops are the limit over `n`; a loop terminates
precisely when some fuel makes the guard false. -/
def whileL {α : Type} (guard : α → Bool) (step : α → α) : Nat → α → α
  | 0, a => a
  | n + 1, a => if guard a then whileL guard step n (step a) else a

theorem whileL_of_guard_false {α : Type} {guard : α → Bool} {step : α → α}
    {a : α} (h : guard a = false) : ∀ n, whileL guard step n a = a := by
  intro n
  cases n with
  | zero => rfl
  | succ n => simp [whileL, h]

theorem whileL_of_step_fixed {α : Type} (guard : α → Bool) (step : α → α)
    (a : α) (h : step a = a) : ∀ n, whileL guard step n a = a := by
  intro n
  induction n with
  | zero => rfl
  | succ n ih =>
    unfold whileL
    split
    · rw [h]; exact ih
    · rfl

theorem whileL_done {α : Type} (guard : α → Bool) (step : α → α) (m : α → Nat)
    (h : ∀ a, guard a = true → m (step a) < m a) :
    ∀ (n : Nat) (a : α), m a < n → guard (whileL guard step n a) = false := by
  intro n
  induction n with
  | zero => intro a ha; omega
  | succ n ih =>
    intro a ha
    unfold whileL
    by_cases hg : guard a = true
    · rw [if_pos hg]
      exact ih (step a) (by have := h a hg; omega)
    · rw [if_neg hg]
      exact Bool.not_eq_true _ ▸ hg

theorem whileL_measure_le {α : Type} {guard : α → Bool} {step : α → α}
    {m : α → Nat} (h : ∀ a, guard a = true → m (step a) ≤ m a) :
    ∀ (n : Nat) (a : α), m (whileL guard step n a) ≤ m a := by
  intro n
  induction n with
  | zero => intro a; exact Nat.le_refl _
  | succ n ih =>
    intro a
    unfold whileL
    by_cases hg : guard a = true
    · rw [if_pos hg]
      exact Nat.le_trans (ih (step a)) (h a hg)
    · rw [if_neg hg]

/-- Guard of the first walk loop of `reach_position` (src/src/lib.rs line
282): `row < x && has_enough_energy(50)`. -/
def gDown (x : Nat) (s : NavState) : Bool :=
  decide (s.pos.1 < x) && decide (50 ≤ s.energy)

/-- Guard of the second walk loop (line 285): `row > x` with the energy
check. -/
def gUp (x : Nat) (s : NavState) : Bool :=
  decide (x < s.pos.1) && decide (50 ≤ s.energy)

/-- Guard of the third walk loop (line 288): `col < y` with the energy
check. -/
def gRight (y : Nat) (s : NavState) : Bool :=
  decide (s.pos.2 < y) && decide (50 ≤ s.energy)

/-- Guard of the fourth walk loop (line 291): `col > y` with the energy
check. -/
def gLeft (y : Nat) (s : NavState) : Bool :=
  decide (y < s.pos.2) && decide (50 ≤ s.energy)

/-- First `while` loop of `reach_position` (src/src/lib.rs lines 282-284):
step `Down` while the row is below the target and energy suffices. -/
def walkDown (g : GoFn) (fuel x : Nat) (s : NavState) : NavState :=
  whileL (gDown x) (fun t => applyGo g t .Down) fuel s

/-- Second `while` loop (lines 285-287): step `Up` while the row exceeds the
target. -/
def walkUp (g : GoFn) (fuel x : Nat) (s : NavState) : NavState :=
  whileL (gUp x) (fun t => applyGo g t .Up) fuel s

/-- Third `while` loop (lines 288-290): step `Right` while the column is
below the target. -/
def walkRight (g : GoFn) (fuel y : Nat) (s : NavState) : NavState :=
  whileL (gRight y) (fun t => applyGo g t .Right) fuel s

/-- Fourth `while` loop (lines 291-293): step `Left` while the column
exceeds the target. -/
def walkLeft (g : GoFn) (fuel y : Nat) (s : NavState) : NavState :=
  whileL (gLeft y) (fun t => applyGo g t .Left) fuel s

/-- The navigation state after the four walk loops of `reach_position`, in
the source's order. -/
def walkEnd (g : GoFn) (fuel x y : Nat) (s : NavState) : NavState :=
  walkLeft g fuel y (walkRight g fuel y (walkUp g fuel x (walkDown g fuel x s)))

/-- `reach_position` (src/src/lib.rs lines 280-295): a two-phase greedy
Manhattan walk — step down/up until the row matches or energy drops below
the movement threshold, then right/left likewise — returning whether both
coordinates match the target afterwards.  Each `while` loop is embedded
fuel-indexed; the source's behaviour on terminating runs is the value once
every guard has gone false. -/
def reach_position (g : GoFn) (fuel x y : Nat) (s : NavState) : Bool × NavState :=
  (decide ((walkEnd g fuel x y s).pos.1 = x) &&
     decide ((walkEnd g fuel x y s).pos.2 = y),
   walkEnd g fuel x y s)

/-- All four walk-loop guards of `reach_position` are false after running
with the given fuel — the fuel sufficed, i.e. the source's unbounded loops
exit. -/
def reachDone (g : GoFn) (fuel x y : Nat) (s : NavState) : Bool :=
  !(gDown x (walkDown g fuel x s)) &&
    !(gUp x (walkUp g fuel x (walkDown g fuel x s))) &&
    !(gRight y (walkRight g fuel y (walkUp g fuel x (walkDown g fuel x s)))) &&
    !(gLeft y (walkEnd g fuel x y s))

/-- Termination of a `reach_position` call: some fuel makes every walk-loop
guard false. -/
def reachTerm (g : GoFn) (x y : Nat) (s : NavState) : Prop :=
  ∃ n, reachDone g n x y s = true

/-- The `go` oracle in which every step fails (a permanently blocked robot):
`go` returns an error and leaves position and energy unchanged. -/
def gFail : GoFn := fun _ _ => none

/-- Lexicographic strict order on the heap items `(dist, (row, col))` of
`wander_in_seach_of` — the derived `Ord` of Rust tuples, under which
`BinaryHeap::pop` yields the greatest item. -/
def heapLt (a b : Int × (Nat × Nat)) : Bool :=
  decide (a.1 < b.1) ||
    (decide (a.1 = b.1) &&
      (decide (a.2.1 < b.2.1) ||
        (decide (a.2.1 = b.2.1) && decide (a.2.2 < b.2.2))))

/-- `BinaryHeap::pop` on the distance heap: remove and return the greatest
item (by `heapLt`), or `none` on the empty heap. -/
def popMax : List (Int × (Nat × Nat)) →
    Option ((Int × (Nat × Nat)) × List (Int × (Nat × Nat)))
  | [] => none
  | a :: t =>
    match popMax t with
    | none => some (a, [])
    | some (m, rest) => if heapLt a m then some (m, a :: rest) else some (a, t)

theorem popMax_cons_none {a : Int × (Nat × Nat)} {t : List (Int × (Nat × Nat))}
    (hp : popMax t = none) : popMax (a :: t) = some (a, []) := by
  unfold popMax
  rw [hp]

theorem popMax_cons_some {a m : Int × (Nat × Nat)}
    {t rest : List (Int × (Nat × Nat))} (hp : popMax t = some (m, rest)) :
    popMax (a :: t) =
      if heapLt a m = true then some (m, a :: rest) else some (a, t) := by
  unfold popMax
  rw [hp]

theorem popMax_none {l : List (Int × (Nat × Nat))} (h : popMax l = none) :
    l = [] := by
  cases l with
  | nil => rfl
  | cons a t =>
    exfalso
    cases hp : popMax t with
    | none => rw [popMax_cons_none hp] at h; exact Option.noConfusion h
    | some mr =>
      obtain ⟨m, rest⟩ := mr
      rw [popMax_cons_some hp] at h
      split at h <;> exact Option.noConfusion h

theorem popMax_length : ∀ {l : List (Int × (Nat × Nat))}
    {a : Int × (Nat × Nat)} {r : List (Int × (Nat × Nat))},
    popMax l = some (a, r) → r.length + 1 = l.length := by
  intro l
  induction l with
  | nil => intro a r h; simp [popMax] at h
  | cons b t ih =>
    intro a r h
    cases hp : popMax t with
    | none =>
      rw [popMax_cons_none hp] at h
      have ht : t = [] := popMax_none hp
      simp at h
      obtain ⟨h1, h2⟩ := h
      subst h2
      subst ht
      rfl
    | some mr =>
      obtain ⟨m, rest⟩ := mr
      rw [popMax_cons_some hp] at h
      split at h
      · simp at h
        obtain ⟨h1, h2⟩ := h
        have hlen := ih hp
        subst h2
        simp only [List.length_cons] at hlen ⊢
        omega
      · simp at h
        obtain ⟨h1, h2⟩ := h
        subst h2
        rfl

/-- State of the bank-visiting loop of `wander_in_seach_of` (src/src/lib.rs
lines 590-594): the navigation state plus the distance heap. -/
abbrev WanderSt : Type := NavState × List (Int × (Nat × Nat))

/-- Guard of the visiting loop (line 590): `has_enough_energy(400) &&
heap.len() > 0`. -/
def wanderVisitGuard (st : WanderSt) : Bool :=
  decide (400 ≤ st.1.energy) && decide (0 < st.2.length)

/-- One iteration of the visiting loop (lines 591-593): pop the top heap
item and run the body — `reach_position` to its coordinates followed by
`destroy_area` — here an arbitrary total state transformer `f`, as both
callees only touch the navigation state. -/
def wanderVisitStep (f : NavState → Nat × Nat → NavState) (st : WanderSt) : WanderSt :=
  match popMax st.2 with
  | none => st
  | some (it, rest) => (f st.1 it.2, rest)

/-- Termination of the visiting loop: some fuel makes its guard false. -/
def wanderVisitTerm (f : NavState → Nat × Nat → NavState) (st : WanderSt) : Prop :=
  ∃ n, wanderVisitGuard (whileL wanderVisitGuard (wanderVisitStep f) n st) = false

/-- C5: with energy below the single-step threshold `50`, `reach_position`
leaves the state untouched (no loop body runs, hence zero moves) and returns
`true` exactly when the agent is already at the target; and in general a
`true` result implies both coordinates equal the target after the walk. -/
theorem reach_position_low_energy (g : GoFn) (fuel x y : Nat) (s : NavState) :
    (s.energy < 50 →
      (reach_position g fuel x y s).2 = s ∧
        ((reach_position g fuel x y s).1 = true ↔ s.pos = (x, y))) ∧
      ((reach_position g fuel x y s).1 = true →
        (reach_position g fuel x y s).2.pos = (x, y)) := by
  constructor
  · intro hE
    have hge : decide (50 ≤ s.energy) = false := by simp; omega
    have h1 : gDown x s = false := by unfold gDown; rw [hge]; simp
    have h2 : gUp x s = false := by unfold gUp; rw [hge]; simp
    have h3 : gRight y s = false := by unfold gRight; rw [hge]; simp
    have h4 : gLeft y s = false := by unfold gLeft; rw [hge]; simp
    have hend : walkEnd g fuel x y s = s := by
      unfold walkEnd walkDown walkUp walkRight walkLeft
      rw [whileL_of_guard_false h1, whileL_of_guard_false h2,
        whileL_of_guard_false h3, whileL_of_guard_false h4]
    have hfix : (reach_position g fuel x y s).2 = s := by
      unfold reach_position
      rw [hend]
    refine ⟨hfix, ?_⟩
    unfold reach_position
    rw [hend]
    constructor
    · intro h
      have := (Bool.and_eq_true _ _).mp h
      have hr : s.pos.1 = x := by simpa using this.1
      have hc : s.pos.2 = y := by simpa using this.2
      exact Prod.ext hr hc
    · intro h
      simp [h]
  · intro h
    unfold reach_position at h ⊢
    have := (Bool.and_eq_true _ _).mp h
    have hr := of_decide_eq_true this.1
    have hc := of_decide_eq_true this.2
    exact Prod.ext hr hc

/-- Witness for C5 at a concrete input: energy `40 < 50`, start `(2, 3)`,
target `(9, 9)` with the always-failing `go` oracle. -/
theorem reach_position_low_energy_witness :
    (40 : Nat) < 50 ∧
      ((reach_position gFail 7 9 9 ⟨(2, 3), 40⟩).2 = ⟨(2, 3), 40⟩ ∧
        ((reach_position gFail 7 9 9 ⟨(2, 3), 40⟩).1 = true ↔
          ((2, 3) : Nat × Nat) = (9, 9))) :=
  ⟨by decide, (reach_position_low_energy gFail 7 9 9 ⟨(2, 3), 40⟩).1 (by decide)⟩

/-- C6 counterexample: navigation does not terminate for every input.  With
every step failing (blocked robot, no energy drain) and the agent at row `0`
seeking row `1` with energy `100`, no amount of fuel ever falsifies the walk
guards — the source's first `while` loop in `reach_position` spins forever. -/
theorem reach_position_nonterminating_cex :
    ¬ reachTerm gFail 1 1 ⟨(0, 0), 100⟩ := by
  intro ⟨n, hn⟩
  have hfix : walkDown gFail n 1 ⟨(0, 0), 100⟩ = ⟨(0, 0), 100⟩ := by
    unfold walkDown
    exact whileL_of_step_fixed (gDown 1) (fun t => applyGo gFail t .Down)
      ⟨(0, 0), 100⟩ rfl n
  unfold reachDone at hn
  rw [hfix] at hn
  have hg : gDown 1 ⟨(0, 0), 100⟩ = true := by decide
  rw [hg] at hn
  simp at hn

/-- C6 (amended): `reach_position` terminates provided every step attempted
with energy at or above the movement threshold succeeds and strictly
decreases the energy level (the loops are then bounded by the energy
budget); and the bank-visiting loop of `wander_in_seach_of` terminates
within `heap.length` iterations for any total loop body, because each
iteration pops one element off the priority heap.  A step call that fails
persistently without consuming energy voids the first guarantee, as the
counterexample above shows. -/
theorem reach_position_terminates (g : GoFn) (x y : Nat) (s : NavState)
    (f : NavState → Nat × Nat → NavState) (st : WanderSt)
    (hg : ∀ (t : NavState) (d : Direction), 50 ≤ t.energy →
      ∃ t2, g t d = some t2 ∧ t2.energy < t.energy) :
    reachTerm g x y s ∧ wanderVisitTerm f st := by
  constructor
  case right =>
    refine ⟨st.2.length + 1, ?_⟩
    apply whileL_done wanderVisitGuard (wanderVisitStep f)
      (fun u => u.2.length)
    · intro u hu
      have hlen : 0 < u.2.length :=
        of_decide_eq_true ((Bool.and_eq_true _ _).mp hu).2
      unfold wanderVisitStep
      cases hp : popMax u.2 with
      | none =>
        have := popMax_none hp
        rw [this] at hlen
        simp at hlen
      | some ar =>
        obtain ⟨a, r⟩ := ar
        have := popMax_length hp
        simp only []
        omega
    · omega
  case left =>
    have hstep : ∀ (d : Direction) (guard : NavState → Bool),
        (∀ t, guard t = true → 50 ≤ t.energy) →
        ∀ t, guard t = true → (applyGo g t d).energy < t.energy := by
      intro d guard hge t ht
      obtain ⟨t2, hgo, hlt⟩ := hg t d (hge t ht)
      unfold applyGo
      rw [hgo]
      exact hlt
    have hge1 : ∀ t, gDown x t = true → 50 ≤ t.energy := by
      intro t ht; exact of_decide_eq_true ((Bool.and_eq_true _ _).mp ht).2
    have hge2 : ∀ t, gUp x t = true → 50 ≤ t.energy := by
      intro t ht; exact of_decide_eq_true ((Bool.and_eq_true _ _).mp ht).2
    have hge3 : ∀ t, gRight y t = true → 50 ≤ t.energy := by
      intro t ht; exact of_decide_eq_true ((Bool.and_eq_true _ _).mp ht).2
    have hge4 : ∀ t, gLeft y t = true → 50 ≤ t.energy := by
      intro t ht; exact of_decide_eq_true ((Bool.and_eq_true _ _).mp ht).2
    have hlt1 := hstep .Down (gDown x) hge1
    have hlt2 := hstep .Up (gUp x) hge2
    have hlt3 := hstep .Right (gRight y) hge3
    have hlt4 := hstep .Left (gLeft y) hge4
    refine ⟨s.energy + 1, ?_⟩
    unfold reachDone walkEnd walkDown walkUp walkRight walkLeft
    have hd1 : ∀ t : NavState, t.energy < s.energy + 1 →
        gDown x (whileL (gDown x) (fun t => applyGo g t .Down) (s.energy + 1) t) = false :=
      fun t ht => whileL_done (gDown x) _ NavState.energy hlt1 (s.energy + 1) t ht
    have hd2 : ∀ t : NavState, t.energy < s.energy + 1 →
        gUp x (whileL (gUp x) (fun t => applyGo g t .Up) (s.energy + 1) t) = false :=
      fun t ht => whileL_done (gUp x) _ NavState.energy hlt2 (s.energy + 1) t ht
    have hd3 : ∀ t : NavState, t.energy < s.energy + 1 →
        gRight y (whileL (gRight y) (fun t => applyGo g t .Right) (s.energy + 1) t) = false :=
      fun t ht => whileL_done (gRight y) _ NavState.energy hlt3 (s.energy + 1) t ht
    have hd4 : ∀ t : NavState, t.energy < s.energy + 1 →
        gLeft y (whileL (gLeft y) (fun t => applyGo g t .Left) (s.energy + 1) t) = false :=
      fun t ht => whileL_done (gLeft y) _ NavState.energy hlt4 (s.energy + 1) t ht
    have hle1 : ∀ (n : Nat) (t : NavState),
        NavState.energy (whileL (gDown x) (fun t => applyGo g t .Down) n t) ≤ t.energy :=
      fun n t => whileL_measure_le (fun u hu => Nat.le_of_lt (hlt1 u hu)) n t
    have hle2 : ∀ (n : Nat) (t : NavState),
        NavState.energy (whileL (gUp x) (fun t => applyGo g t .Up) n t) ≤ t.energy :=
      fun n t => whileL_measure_le (fun u hu => Nat.le_of_lt (hlt2 u hu)) n t
    have hle3 : ∀ (n : Nat) (t : NavState),
        NavState.energy (whileL (gRight y) (fun t => applyGo g t .Right) n t) ≤ t.energy :=
      fun n t => whileL_measure_le (fun u hu => Nat.le_of_lt (hlt3 u hu)) n t
    have he1 := hle1 (s.energy + 1) s
    have he2 := hle2 (s.energy + 1) (whileL (gDown x) (fun t => applyGo g t .Down) (s.energy + 1) s)
    have he3 := hle3 (s.energy + 1)
      (whileL (gUp x) (fun t => applyGo g t .Up) (s.energy + 1)
        (whileL (gDown x) (fun t => applyGo g t .Down) (s.energy + 1) s))
    rw [hd1 s (by omega), hd2 _ (by omega), hd3 _ (by omega), hd4 _ (by omega)]
    rfl

/-- A `go` oracle in which every step succeeds, stays in place, and costs
`50` energy. -/
def gDrain : GoFn := fun t _ => some ⟨t.pos, t.energy - 50⟩

/-- Witness for the amended C6 theorem: with the draining `go` oracle every
navigation call terminates — here from `(0, 0)` with energy `100` toward
`(1, 1)` — and the visiting loop terminates on a one-element heap with a
stationary body. -/
theorem reach_position_terminates_witness :
    (∀ (t : NavState) (d : Direction), 50 ≤ t.energy →
      ∃ t2, gDrain t d = some t2 ∧ t2.energy < t.energy) ∧
      (reachTerm gDrain 1 1 ⟨(0, 0), 100⟩ ∧
        wanderVisitTerm (fun t _ => t) (⟨(0, 0), 500⟩, [(2, (1, 1))])) := by
  have hg : ∀ (t : NavState) (d : Direction), 50 ≤ t.energy →
      ∃ t2, gDrain t d = some t2 ∧ t2.energy < t.energy := by
    intro t d h
    exact ⟨⟨t.pos, t.energy - 50⟩, rfl, by simp; omega⟩
  exact ⟨hg, reach_position_terminates gDrain 1 1 ⟨(0, 0), 100⟩
    (fun t _ => t) (⟨(0, 0), 500⟩, [(2, (1, 1))]) hg⟩

/-- The `SaverBot` state the modelled claims touch: robot coordinate and
energy, the backpack counts of the three contents the controller reads,
the two bank charts, the `used_banks` ledger, the total-saved counter, the
optional goal and the behaviour state.  (`seen`, `timer`, the audio tool
and the search tool influence no modelled claim.) -/
structure BotS where
  pos : Nat × Nat
  energy : Nat
  coins : Nat
  garbage : Nat
  rocks : Nat
  free : Banks
  filled : Banks
  used : List ((Nat × Nat) × Nat)
  saved : Nat
  goal : Option Nat
  state : StateB
deriving DecidableEq, Repr

/-- Effect of an external-interface call on the embodiment-owned fields
(position, energy, backpack counts) — all that `destroy`, `recycle`,
`DestroyZone` or the Asphaltinator can mutate. -/
structure EmbEff where
  pos : Nat × Nat
  energy : Nat
  coins : Nat
  garbage : Nat
  rocks : Nat
deriving Repr

/-- Effect of the searching helpers (`wander_in_seach_of`,
`go_to_closest_open_bank`): embodiment fields plus the free-bank chart,
which the bank-merging block may extend.  They never touch `filled_banks`,
`used_banks`, `saved`, the goal or the behaviour state. -/
structure NavEff where
  pos : Nat × Nat
  energy : Nat
  coins : Nat
  garbage : Nat
  rocks : Nat
  free : Banks
deriving Repr

/-- Apply an embodiment effect. -/
def applyEmb (b : BotS) (e : EmbEff) : BotS :=
  { b with pos := e.pos, energy := e.energy, coins := e.coins,
           garbage := e.garbage, rocks := e.rocks }

/-- Apply a searching-helper effect. -/
def applyNav (b : BotS) (e : NavEff) : BotS :=
  { b with pos := e.pos, energy := e.energy, coins := e.coins,
           garbage := e.garbage, rocks := e.rocks, free := e.free }

/-- Oracle bundle for one tick: the world-dependent outcome of every
collaborator call the controller makes.  `goFn` yields the post-move
position/energy of a successful `go` (or `none` on failure); `putFn` yields
the accepted quantity, the post-call energy and the post-call backpack count
of the deposited content (or `none` when the interface errors). -/
structure TickO where
  window : BotS → Window
  destroyZoneEff : BotS → EmbEff
  destroyScanEff : BotS → EmbEff
  wanderEff : BotS → List ContentB → NavEff
  recycleEff : BotS → EmbEff
  gotoOpen : BotS → NavEff × Option Direction
  gotoUsed : BotS → EmbEff × Option Direction
  goFn : BotS → Direction → Option ((Nat × Nat) × Nat)
  putFn : BotS → ContentB → Nat → Direction → Option (Nat × Nat × Nat)
  asphaltEff : BotS → EmbEff

/-- Effect of a `let _ = go(self, world, d)` call on the full bot state. -/
def applyGoB (o : TickO) (b : BotS) (d : Direction) : BotS :=
  match o.goFn b d with
  | none => b
  | some pe => { b with pos := pe.1, energy := pe.2 }

/-- Effect of a `let _ = put(self, world, content, q, d)` call whose result
is discarded: on success the interface charges energy and removes the
accepted amount of that content from the backpack. -/
def applyPut (o : TickO) (b : BotS) (c : ContentB) (q : Nat) (d : Direction) : BotS :=
  match o.putFn b c q d with
  | none => b
  | some r =>
    match c with
    | .Coin => { b with energy := r.2.1, coins := r.2.2 }
    | .Garbage => { b with energy := r.2.1, garbage := r.2.2 }
    | .Rock => { b with energy := r.2.1, rocks := r.2.2 }
    | _ => { b with energy := r.2.1 }

/-- `HashMap::get` on the `used_banks` ledger. -/
def hmGet (m : List ((Nat × Nat) × Nat)) (k : Nat × Nat) : Option Nat :=
  (m.find? (fun kv => decide (kv.1 = k))).map (fun kv => kv.2)

/-- `HashMap::insert` on the `used_banks` ledger (replace any existing
entry for the key). -/
def hmInsert (m : List ((Nat × Nat) × Nat)) (k : Nat × Nat) (v : Nat) :
    List ((Nat × Nat) × Nat) :=
  (k, v) :: m.filter (fun kv => decide (kv.1 ≠ k))

/-- Collaborator calls a handler issues, in order — used to state what
`rock_collect` does before searching. -/
inductive CallEv
  | putc (c : ContentB) (q : Nat) (d : Direction)
  | search (cs : List ContentB)
deriving DecidableEq, Repr

/-- `destroy_area` (src/src/lib.rs lines 380-432): build `banks_points`
from the two charts, compute the safety flag over the defective offset list,
then either run `DestroyZone` for each hunted content (flag true) or the
conservative per-tile scan with single `destroy` calls (flag false).  Both
branches only perform `destroy`-interface calls, so their world-dependent
outcome is an embodiment effect. -/
def destroy_area (o : TickO) (b : BotS) : BotS :=
  if destroyAreaGood (banksPoints b.free b.filled)
      ((b.pos.1 : Int)) ((b.pos.2 : Int)) then
    applyEmb b (o.destroyZoneEff b)
  else
    applyEmb b (o.destroyScanEff b)

/-- The goal test opening `coin_collect` (src/src/lib.rs line 363):
`goal.is_some() && goal.unwrap() <= saved + coins`. -/
def goalReachable (b : BotS) : Bool :=
  match b.goal with
  | some g => decide (g ≤ b.saved + b.coins)
  | none => false

/-- Tail of `coin_collect` (src/src/lib.rs lines 367-378): wander after
coins, then switch to `Saving` on `coins ≥ 12`, else to `Trading` on
`garbage ≥ 5 || rock ≥ 3`. -/
def coinCollectBody (o : TickO) (b : BotS) : BotS :=
  let b1 := applyNav b (o.wanderEff b COIN_LOOKING_FOR)
  if 12 ≤ b1.coins then { b1 with state := .Saving }
  else if 5 ≤ b1.garbage ∨ 3 ≤ b1.rocks then { b1 with state := .Trading }
  else b1

/-- `coin_collect` (src/src/lib.rs lines 361-379). -/
def coin_collect (o : TickO) (b : BotS) : BotS :=
  if goalReachable b then { b with state := .Saving }
  else coinCollectBody o b

/-- `rock_collect` (src/src/lib.rs lines 433-446): dump the whole coin
inventory upward, then the whole garbage inventory upward (results
discarded), wander after rocks, and switch to `Finish` on `rock ≥ 8`.  The
second component records the collaborator calls in order. -/
def rock_collect (o : TickO) (b : BotS) : BotS × List CallEv :=
  let b1 := applyPut o b .Coin b.coins .Up
  let b2 := applyPut o b1 .Garbage b1.garbage .Up
  let b3 := applyNav b2 (o.wanderEff b2 ROCK_LOOKING_FOR)
  let b4 := if 8 ≤ b3.rocks then { b3 with state := .Finish } else b3
  (b4, [CallEv.putc .Coin b.coins .Up, CallEv.putc .Garbage b1.garbage .Up,
        CallEv.search ROCK_LOOKING_FOR])

/-- `trade` (src/src/lib.rs lines 346-360): recycle, then `Saving` on
`coins ≥ 12` else back to `CoinCollecting`. -/
def trade (o : TickO) (b : BotS) : BotS :=
  let b1 := applyEmb b (o.recycleEff b)
  if 12 ≤ b1.coins then { b1 with state := .Saving }
  else { b1 with state := .CoinCollecting }

/-- `search_for_bank` (src/src/lib.rs lines 451-459): if the bank key of
the free chart is populated switch to `Saving`, else look for unknown banks
and wander after banks. -/
def search_for_bank (o : TickO) (b : BotS) : BotS :=
  if !b.free.isEmpty then { b with state := .Saving }
  else
    let b1 := { b with
      free := look_for_unknown_banks (o.window b) b.pos.1 b.pos.2 b.free }
    applyNav b1 (o.wanderEff b1 BANK_LOOKING_FOR)

/-- The per-direction move sequences of `finish` (src/src/lib.rs lines
745-763) heading for the bottom-left corner of the bank. -/
def finishMoves (o : TickO) (b : BotS) : Direction → BotS
  | .Up => applyGoB o b .Left
  | .Down => applyGoB o (applyGoB o (applyGoB o b .Left) .Down) .Down
  | .Left => applyGoB o b .Down
  | .Right => applyGoB o (applyGoB o (applyGoB o b .Down) .Left) .Left

/-- The body of `finish`'s success branch (src/src/lib.rs lines 744-768):
run the corner moves, asphalt around the bank, switch to `Enjoying`. -/
def finishBuild (o : TickO) (b1 : BotS) (d : Direction) : BotS :=
  { applyEmb (finishMoves o b1 d) (o.asphaltEff (finishMoves o b1 d)) with
    state := .Enjoying }

/-- `finish` (src/src/lib.rs lines 739-770): head to the most-lucrative
used bank, and with a direction found and energy `≥ 500`, run the success
branch. -/
def finish (o : TickO) (b : BotS) : BotS :=
  match (o.gotoUsed b).2 with
  | some d =>
    if 500 ≤ (applyEmb b (o.gotoUsed b).1).energy then
      finishBuild o (applyEmb b (o.gotoUsed b).1) d
    else applyEmb b (o.gotoUsed b).1
  | none => applyEmb b (o.gotoUsed b).1

/-- Bot state after `go_to_closest_open_bank` (src/src/lib.rs lines
460-486, world-dependent: navigation, possible wandering, neighbourhood
scan — the oracle `gotoOpen`). -/
def gotoNav (o : TickO) (b : BotS) : BotS :=
  applyNav b (o.gotoOpen b).1

/-- Direction resolution of `save` (src/src/lib.rs lines 625-646): resolve
the closest free bank, run `go_to_closest_open_bank`, and if the resolved
bank coincides with the agent's pre-navigation tile, try stepping
Left/Right/Up and finally Down, taking the first success as the deposit
direction (the Down fallback direction is chosen even if that step fails). -/
def savePrep (o : TickO) (b : BotS) : BotS × Option Direction :=
  if closest_bank b.free b.pos = b.pos then
    match o.goFn (gotoNav o b) .Left with
    | some pe => ({ gotoNav o b with pos := pe.1, energy := pe.2 }, some .Left)
    | none =>
      match o.goFn (gotoNav o b) .Right with
      | some pe => ({ gotoNav o b with pos := pe.1, energy := pe.2 }, some .Right)
      | none =>
        match o.goFn (gotoNav o b) .Up with
        | some pe => ({ gotoNav o b with pos := pe.1, energy := pe.2 }, some .Up)
        | none => (applyGoB o (gotoNav o b) .Down, some .Down)
  else (gotoNav o b, (o.gotoOpen b).2)

/-- The chart update of the zero-accepted branch (src/src/lib.rs lines
651-654): on zero accepted, the resolved bank coordinate moves from the
free to the filled chart; otherwise both charts are untouched. -/
def saveFreeFilled (b2 : BotS) (cxy : Nat × Nat) (q : Nat) : Banks × Banks :=
  if q = 0 then (cmRemove b2.free cxy, cmSave b2.filled cxy)
  else (b2.free, b2.filled)

/-- Bookkeeping of a deposit that returned `Ok` (src/src/lib.rs lines
650-664): the put interface charges energy and removes the accepted coins
(`r.2`); the zero-accepted branch updates the charts; the accepted quantity
`r.1` is added to `saved` and to the `used_banks` ledger entry keyed by the
agent's current coordinate (created at `0` if absent). -/
def saveDeposit (b2 : BotS) (cxy : Nat × Nat) (r : Nat × Nat × Nat) : BotS :=
  { b2 with
    energy := r.2.1
    coins := r.2.2
    free := (saveFreeFilled b2 cxy r.1).1
    filled := (saveFreeFilled b2 cxy r.1).2
    saved := b2.saved + r.1
    used := hmInsert b2.used b2.pos ((hmGet b2.used b2.pos).getD 0 + r.1) }

/-- The goal test `goal.is_some() && saved >= goal` used by `save`'s
transitions (src/src/lib.rs lines 666-668 and 679-680). -/
def metGoal (b : BotS) : Bool :=
  match b.goal with
  | some g => decide (g ≤ b.saved)
  | none => false

/-- The goal-driven transition closing a successful deposit
(src/src/lib.rs lines 666-674): `RockCollecting` when the goal is met, else
`CoinCollecting` (also when no goal is set). -/
def saveTransition (b : BotS) : BotS :=
  if metGoal b then { b with state := .RockCollecting }
  else { b with state := .CoinCollecting }

/-- The transition when no deposit direction was found (src/src/lib.rs
lines 678-688): `RockCollecting` when the goal is met, else
`BankSearching` (also when no goal is set). -/
def saveNoDirTransition (b2 : BotS) : BotS :=
  if metGoal b2 then { b2 with state := .RockCollecting }
  else { b2 with state := .BankSearching }

/-- `save` (src/src/lib.rs lines 623-689): after direction resolution
(`savePrep`), deposit the full coin inventory in that direction.  On `Ok`
run the deposit bookkeeping and the goal-driven transition; on a deposit
error nothing further happens this tick; with no deposit direction, run the
no-direction transition. -/
def save (o : TickO) (b : BotS) : BotS :=
  match savePrep o b with
  | (b2, some dir) =>
    match o.putFn b2 .Coin b2.coins dir with
    | some r => saveTransition (saveDeposit b2 (closest_bank b.free b.pos) r)
    | none => b2
  | (b2, none) => saveNoDirTransition b2

/-- The state dispatch of `process_tick` (src/src/lib.rs lines 192-214). -/
def dispatch (o : TickO) (b2 : BotS) : BotS :=
  match b2.state with
  | .CoinCollecting => coin_collect o b2
  | .RockCollecting => (rock_collect o b2).1
  | .Finish => finish o b2
  | .Saving => save o b2
  | .Enjoying => b2
  | .Trading => trade o b2
  | .BankSearching => search_for_bank o b2

/-- `process_tick` (src/src/lib.rs lines 157-215): always look for unknown
banks and run `destroy_area`; stop if energy is below the tick-admission
threshold `150`; otherwise dispatch on the behaviour state.  (The `seen`
vector update between the gate and the dispatch affects no modelled
field.) -/
def tick (o : TickO) (b : BotS) : BotS :=
  let b2 := destroy_area o
    { b with free := look_for_unknown_banks (o.window b) b.pos.1 b.pos.2 b.free }
  if !(150 ≤ b2.energy : Bool) then b2 else dispatch o b2

theorem applyGoB_fields (o : TickO) (b : BotS) (d : Direction) :
    (applyGoB o b d).saved = b.saved ∧ (applyGoB o b d).used = b.used ∧
      (applyGoB o b d).filled = b.filled ∧ (applyGoB o b d).goal = b.goal := by
  unfold applyGoB
  cases o.goFn b d with
  | none => exact ⟨rfl, rfl, rfl, rfl⟩
  | some pe => exact ⟨rfl, rfl, rfl, rfl⟩

theorem savePrep_fields (o : TickO) (b : BotS) :
    ((savePrep o b).1).saved = b.saved ∧ ((savePrep o b).1).used = b.used ∧
      ((savePrep o b).1).filled = b.filled ∧ ((savePrep o b).1).goal = b.goal := by
  unfold savePrep
  split
  · cases o.goFn (gotoNav o b) .Left with
    | some pe => exact ⟨rfl, rfl, rfl, rfl⟩
    | none =>
      cases o.goFn (gotoNav o b) .Right with
      | some pe => exact ⟨rfl, rfl, rfl, rfl⟩
      | none =>
        cases o.goFn (gotoNav o b) .Up with
        | some pe => exact ⟨rfl, rfl, rfl, rfl⟩
        | none => exact applyGoB_fields o (gotoNav o b) .Down
  · exact ⟨rfl, rfl, rfl, rfl⟩

theorem saveDeposit_saved (b2 : BotS) (cxy : Nat × Nat) (r : Nat × Nat × Nat) :
    (saveDeposit b2 cxy r).saved = b2.saved + r.1 := rfl

theorem saveDeposit_used (b2 : BotS) (cxy : Nat × Nat) (r : Nat × Nat × Nat) :
    (saveDeposit b2 cxy r).used =
      hmInsert b2.used b2.pos ((hmGet b2.used b2.pos).getD 0 + r.1) := rfl

theorem saveFreeFilled_zero (b2 : BotS) (cxy : Nat × Nat) {q : Nat} (h : q = 0) :
    saveFreeFilled b2 cxy q = (cmRemove b2.free cxy, cmSave b2.filled cxy) := by
  unfold saveFreeFilled
  rw [if_pos h]

theorem saveDeposit_zero (b2 : BotS) (cxy : Nat × Nat) (r : Nat × Nat × Nat)
    (h : r.1 = 0) :
    cxy ∉ (saveDeposit b2 cxy r).free ∧ cxy ∈ (saveDeposit b2 cxy r).filled := by
  have hfree : (saveDeposit b2 cxy r).free = (saveFreeFilled b2 cxy r.1).1 := rfl
  have hfill : (saveDeposit b2 cxy r).filled = (saveFreeFilled b2 cxy r.1).2 := rfl
  rw [hfree, hfill, saveFreeFilled_zero b2 cxy h]
  exact ⟨not_mem_cmRemove, mem_cmSave.mpr (Or.inr rfl)⟩

theorem saveTransition_fields (b : BotS) :
    (saveTransition b).saved = b.saved ∧ (saveTransition b).used = b.used ∧
      (saveTransition b).free = b.free ∧ (saveTransition b).filled = b.filled := by
  unfold saveTransition
  cases hm : metGoal b <;> simp [hm]

theorem hmGet_hmInsert (m : List ((Nat × Nat) × Nat)) (k : Nat × Nat) (v : Nat) :
    hmGet (hmInsert m k v) k = some v := by
  unfold hmGet hmInsert
  simp [List.find?]

/-- C2: whenever the deposit of the Saving handler returns accepted
quantity zero, the landmark resolved by `closest_bank` at entry is removed
from the free chart, inserted into the filled chart, and the total-saved
counter is unchanged. -/
theorem save_zero_accepted (o : TickO) (b b2 : BotS) (dir : Direction) (e c : Nat)
    (hprep : savePrep o b = (b2, some dir))
    (hput : o.putFn b2 .Coin b2.coins dir = some (0, e, c)) :
    closest_bank b.free b.pos ∉ (save o b).free ∧
      closest_bank b.free b.pos ∈ (save o b).filled ∧
      (save o b).saved = b.saved := by
  have hsave : save o b =
      saveTransition (saveDeposit b2 (closest_bank b.free b.pos) (0, e, c)) := by
    unfold save
    rw [hprep]
    simp only []
    rw [hput]
  have hb2 : b2.saved = b.saved := by
    have := (savePrep_fields o b).1
    rw [hprep] at this
    exact this
  have hTf := saveTransition_fields (saveDeposit b2 (closest_bank b.free b.pos) (0, e, c))
  have hz := saveDeposit_zero b2 (closest_bank b.free b.pos) (0, e, c) rfl
  refine ⟨?_, ?_, ?_⟩
  · rw [hsave, hTf.2.2.1]
    exact hz.1
  · rw [hsave, hTf.2.2.2]
    exact hz.2
  · rw [hsave, hTf.1, saveDeposit_saved, hb2]
    simp

/-- Oracle for the C2 witness: `go_to_closest_open_bank` parks the agent at
`(3, 2)`, right next to the resolved bank `(3, 3)`, with deposit direction
`Right`; the deposit interface accepts `0` coins (bank exhausted). -/
def oWit2 : TickO where
  window := fun _ => fun _ _ => none
  destroyZoneEff := fun b => ⟨b.pos, b.energy, b.coins, b.garbage, b.rocks⟩
  destroyScanEff := fun b => ⟨b.pos, b.energy, b.coins, b.garbage, b.rocks⟩
  wanderEff := fun b _ => ⟨b.pos, b.energy, b.coins, b.garbage, b.rocks, b.free⟩
  recycleEff := fun b => ⟨b.pos, b.energy, b.coins, b.garbage, b.rocks⟩
  gotoOpen := fun b => (⟨(3, 2), b.energy, b.coins, b.garbage, b.rocks, b.free⟩, some .Right)
  gotoUsed := fun b => (⟨b.pos, b.energy, b.coins, b.garbage, b.rocks⟩, none)
  goFn := fun _ _ => none
  putFn := fun _ _ _ _ => some (0, 100, 7)
  asphaltEff := fun b => ⟨b.pos, b.energy, b.coins, b.garbage, b.rocks⟩

/-- Saving-state bot for the C2 witness: one known free bank at `(3, 3)`,
agent at `(1, 1)` holding `7` coins, `5` already saved. -/
def bWit2 : BotS where
  pos := (1, 1)
  energy := 200
  coins := 7
  garbage := 0
  rocks := 0
  free := [(3, 3)]
  filled := []
  used := []
  saved := 5
  goal := none
  state := .Saving

/-- Witness for C2 at the concrete exhausted-bank scenario. -/
theorem save_zero_accepted_witness :
    closest_bank bWit2.free bWit2.pos ∉ (save oWit2 bWit2).free ∧
      closest_bank bWit2.free bWit2.pos ∈ (save oWit2 bWit2).filled ∧
      (save oWit2 bWit2).saved = bWit2.saved :=
  save_zero_accepted oWit2 bWit2 ((savePrep oWit2 bWit2).1) .Right 100 7 rfl rfl

/-- Embodiment-effect oracle that changes nothing. -/
def embId : BotS → EmbEff :=
  fun b => ⟨b.pos, b.energy, b.coins, b.garbage, b.rocks⟩

/-- Searching-helper oracle that changes nothing. -/
def navId : BotS → NavEff :=
  fun b => ⟨b.pos, b.energy, b.coins, b.garbage, b.rocks, b.free⟩

/-- Oracle for the C3 scenario: as `oWit2`, but the deposit accepts `5` of
the `7` offered coins. -/
def oWit3 : TickO where
  window := fun _ => fun _ _ => none
  destroyZoneEff := embId
  destroyScanEff := embId
  wanderEff := fun b _ => navId b
  recycleEff := embId
  gotoOpen := fun b => (⟨(3, 2), b.energy, b.coins, b.garbage, b.rocks, b.free⟩, some .Right)
  gotoUsed := fun b => (embId b, none)
  goFn := fun _ _ => none
  putFn := fun _ _ _ _ => some (5, 100, 2)
  asphaltEff := embId

/-- Saving-state bot for the C3 scenario: one known free bank at `(3, 3)`,
agent at `(1, 1)` holding `7` coins, nothing saved yet, empty ledger. -/
def bWit3 : BotS where
  pos := (1, 1)
  energy := 200
  coins := 7
  garbage := 0
  rocks := 0
  free := [(3, 3)]
  filled := []
  used := []
  saved := 0
  goal := none
  state := .Saving

/-- C3 counterexample: after a successful deposit of `5` coins at the bank
`(3, 3)`, the ledger entry is keyed by the agent's own coordinate `(3, 2)`
(the tile it deposited from), not by the bank's coordinate: the bank
coordinate has no ledger entry, and the key `(3, 2)` is not the coordinate
of any known landmark. -/
theorem save_ledger_key_cex :
    (save oWit3 bWit3).used = [((3, 2), 5)] ∧
      hmGet (save oWit3 bWit3).used (3, 3) = none ∧
      ¬ ((3, 2) ∈ (save oWit3 bWit3).free ∨ (3, 2) ∈ (save oWit3 bWit3).filled) := by
  decide

/-- C3 (amended): after every deposit returning `Ok(q)` in the Saving
handler, the accepted quantity `q` is added to the total-saved counter and
to the `used_banks` ledger entry keyed by the agent's coordinate at deposit
time (created if absent) — the tile adjacent to the bank from which the
deposit was made, not the bank's own coordinate. -/
theorem save_ledger_accumulates (o : TickO) (b b2 : BotS) (dir : Direction)
    (q e c : Nat) (hprep : savePrep o b = (b2, some dir))
    (hput : o.putFn b2 .Coin b2.coins dir = some (q, e, c)) :
    (save o b).saved = b.saved + q ∧
      hmGet (save o b).used b2.pos = some ((hmGet b.used b2.pos).getD 0 + q) := by
  have hsave : save o b =
      saveTransition (saveDeposit b2 (closest_bank b.free b.pos) (q, e, c)) := by
    unfold save
    rw [hprep]
    simp only []
    rw [hput]
  have hb2s : b2.saved = b.saved := by
    have := (savePrep_fields o b).1
    rw [hprep] at this
    exact this
  have hb2u : b2.used = b.used := by
    have := (savePrep_fields o b).2.1
    rw [hprep] at this
    exact this
  have hTf := saveTransition_fields (saveDeposit b2 (closest_bank b.free b.pos) (q, e, c))
  constructor
  · rw [hsave, hTf.1, saveDeposit_saved, hb2s]
  · rw [hsave, hTf.2.1, saveDeposit_used, hb2u, hmGet_hmInsert]

/-- Witness for the amended C3 theorem at the concrete deposit scenario. -/
theorem save_ledger_accumulates_witness :
    (save oWit3 bWit3).saved = bWit3.saved + 5 ∧
      hmGet (save oWit3 bWit3).used ((savePrep oWit3 bWit3).1).pos =
        some ((hmGet bWit3.used ((savePrep oWit3 bWit3).1).pos).getD 0 + 5) :=
  save_ledger_accumulates oWit3 bWit3 ((savePrep oWit3 bWit3).1) .Right 5 100 2 rfl rfl

/-- Oracle for the C8 scenario: `go_to_closest_open_bank` finds no bank in
the neighbourhood (no deposit direction) and moves nothing. -/
def oWit8 : TickO where
  window := fun _ => fun _ _ => none
  destroyZoneEff := embId
  destroyScanEff := embId
  wanderEff := fun b _ => navId b
  recycleEff := embId
  gotoOpen := fun b => (navId b, none)
  gotoUsed := fun b => (embId b, none)
  goFn := fun _ _ => none
  putFn := fun _ _ _ _ => none
  asphaltEff := embId

/-- Saving-state bot for the C8 counterexample: goal `0` already met by
`saved = 0`. -/
def bWit8 : BotS where
  pos := (1, 1)
  energy := 200
  coins := 7
  garbage := 0
  rocks := 0
  free := [(3, 3)]
  filled := []
  used := []
  saved := 0
  goal := some 0
  state := .Saving

/-- C8 counterexample: with no deposit direction found but the goal already
met (`goal = some 0`, `saved = 0`), the Saving handler transitions to
`RockCollecting`, not `BankSearching`. -/
theorem save_no_bank_goal_met_cex :
    (savePrep oWit8 bWit8).2 = none ∧
      (save oWit8 bWit8).state = StateB.RockCollecting := by decide

/-- C8 (amended): whenever the Saving handler finds no deposit direction
and the goal is unset or not yet met by the total-saved counter, the next
state is `BankSearching`; when the goal is met it is `RockCollecting`
instead. -/
theorem save_no_direction_unmet (o : TickO) (b b2 : BotS)
    (hprep : savePrep o b = (b2, none)) (hgoal : metGoal b = false) :
    (save o b).state = StateB.BankSearching := by
  have hsave : save o b = saveNoDirTransition b2 := by
    unfold save
    rw [hprep]
  have hg : b2.goal = b.goal := by
    have := (savePrep_fields o b).2.2.2
    rw [hprep] at this
    exact this
  have hs : b2.saved = b.saved := by
    have := (savePrep_fields o b).1
    rw [hprep] at this
    exact this
  have hmg : metGoal b2 = false := by
    unfold metGoal at hgoal ⊢
    rw [hg, hs]
    exact hgoal
  rw [hsave]
  unfold saveNoDirTransition
  simp [hmg]

/-- Saving-state bot for the C8 witness: goal `10` not yet met by
`saved = 0`. -/
def bWit8u : BotS where
  pos := (1, 1)
  energy := 200
  coins := 7
  garbage := 0
  rocks := 0
  free := [(3, 3)]
  filled := []
  used := []
  saved := 0
  goal := some 10
  state := .Saving

/-- Witness for the amended C8 theorem: no deposit direction, goal unmet,
next state `BankSearching`. -/
theorem save_no_direction_unmet_witness :
    metGoal bWit8u = false ∧ (save oWit8 bWit8u).state = StateB.BankSearching :=
  ⟨by decide,
    save_no_direction_unmet oWit8 bWit8u ((savePrep oWit8 bWit8u).1) rfl (by decide)⟩

theorem applyPut_saved_used (o : TickO) (b : BotS) (c : ContentB) (q : Nat)
    (d : Direction) :
    (applyPut o b c q d).saved = b.saved ∧ (applyPut o b c q d).used = b.used := by
  unfold applyPut
  cases o.putFn b c q d with
  | none => exact ⟨rfl, rfl⟩
  | some r => cases c <;> exact ⟨rfl, rfl⟩

theorem applyPut_coin_garbage (o : TickO) (b : BotS) (q : Nat) (d : Direction) :
    (applyPut o b .Coin q d).garbage = b.garbage := by
  unfold applyPut
  cases o.putFn b .Coin q d with
  | none => rfl
  | some r => rfl

theorem rock_collect_fields (o : TickO) (b : BotS) :
    (rock_collect o b).2 =
      [CallEv.putc .Coin b.coins .Up, CallEv.putc .Garbage b.garbage .Up,
        CallEv.search ROCK_LOOKING_FOR] ∧
      ((rock_collect o b).1).saved = b.saved ∧
      ((rock_collect o b).1).used = b.used := by
  have h1 := applyPut_saved_used o b .Coin b.coins .Up
  have h2 := applyPut_saved_used o (applyPut o b .Coin b.coins .Up) .Garbage
    (applyPut o b .Coin b.coins .Up).garbage .Up
  refine ⟨?_, ?_, ?_⟩
  · show [CallEv.putc .Coin b.coins .Up,
          CallEv.putc .Garbage (applyPut o b .Coin b.coins .Up).garbage .Up,
          CallEv.search ROCK_LOOKING_FOR] = _
    rw [applyPut_coin_garbage]
  · show ((if 8 ≤ (applyNav (applyPut o (applyPut o b .Coin b.coins .Up) .Garbage
        (applyPut o b .Coin b.coins .Up).garbage .Up)
          (o.wanderEff (applyPut o (applyPut o b .Coin b.coins .Up) .Garbage
            (applyPut o b .Coin b.coins .Up).garbage .Up) ROCK_LOOKING_FOR)).rocks
      then _ else _ : BotS)).saved = b.saved
    split
    · show (applyPut o (applyPut o b .Coin b.coins .Up) .Garbage
        (applyPut o b .Coin b.coins .Up).garbage .Up).saved = b.saved
      rw [h2.1, h1.1]
    · show (applyPut o (applyPut o b .Coin b.coins .Up) .Garbage
        (applyPut o b .Coin b.coins .Up).garbage .Up).saved = b.saved
      rw [h2.1, h1.1]
  · show ((if 8 ≤ (applyNav (applyPut o (applyPut o b .Coin b.coins .Up) .Garbage
        (applyPut o b .Coin b.coins .Up).garbage .Up)
          (o.wanderEff (applyPut o (applyPut o b .Coin b.coins .Up) .Garbage
            (applyPut o b .Coin b.coins .Up).garbage .Up) ROCK_LOOKING_FOR)).rocks
      then _ else _ : BotS)).used = b.used
    split
    · show (applyPut o (applyPut o b .Coin b.coins .Up) .Garbage
        (applyPut o b .Coin b.coins .Up).garbage .Up).used = b.used
      rw [h2.2, h1.2]
    · show (applyPut o (applyPut o b .Coin b.coins .Up) .Garbage
        (applyPut o b .Coin b.coins .Up).garbage .Up).used = b.used
      rw [h2.2, h1.2]

/-- C10: on a tick handled in the `RockCollecting` state, the handler first
calls `put` with the entire coin inventory in direction `Up`, then with the
entire garbage inventory in direction `Up`, and only then searches for
rocks; the discarded coins reach neither the total-saved counter nor any
ledger entry (both are unchanged by the handler). -/
theorem rock_collect_discards_unbanked (o : TickO) (b : BotS) :
    (rock_collect o b).2 =
      [CallEv.putc .Coin b.coins .Up, CallEv.putc .Garbage b.garbage .Up,
        CallEv.search ROCK_LOOKING_FOR] ∧
      ((rock_collect o b).1).saved = b.saved ∧
      ((rock_collect o b).1).used = b.used :=
  rock_collect_fields o b

theorem applyGoB_saved (o : TickO) (b : BotS) (d : Direction) :
    (applyGoB o b d).saved = b.saved := (applyGoB_fields o b d).1

theorem finishMoves_saved (o : TickO) (b : BotS) (d : Direction) :
    (finishMoves o b d).saved = b.saved := by
  cases d <;> simp [finishMoves, applyGoB_saved]

theorem destroy_area_saved (o : TickO) (b : BotS) :
    (destroy_area o b).saved = b.saved := by
  unfold destroy_area
  split <;> rfl

theorem coin_collect_saved (o : TickO) (b : BotS) :
    (coin_collect o b).saved = b.saved := by
  unfold coin_collect coinCollectBody
  split
  · rfl
  · simp only []
    split
    · rfl
    · split <;> rfl

theorem rock_collect_saved (o : TickO) (b : BotS) :
    ((rock_collect o b).1).saved = b.saved :=
  (rock_collect_fields o b).2.1

theorem trade_saved (o : TickO) (b : BotS) : (trade o b).saved = b.saved := by
  unfold trade
  simp only []
  split <;> rfl

theorem search_for_bank_saved (o : TickO) (b : BotS) :
    (search_for_bank o b).saved = b.saved := by
  unfold search_for_bank
  split <;> rfl

theorem finishBuild_saved (o : TickO) (b1 : BotS) (d : Direction) :
    (finishBuild o b1 d).saved = b1.saved := by
  have h : (finishBuild o b1 d).saved = (finishMoves o b1 d).saved := rfl
  rw [h, finishMoves_saved]

theorem finish_saved (o : TickO) (b : BotS) : (finish o b).saved = b.saved := by
  unfold finish
  cases (o.gotoUsed b).2 with
  | none => rfl
  | some d =>
    show (if 500 ≤ (applyEmb b (o.gotoUsed b).1).energy then
        finishBuild o (applyEmb b (o.gotoUsed b).1) d
      else applyEmb b (o.gotoUsed b).1).saved = b.saved
    split
    · rw [finishBuild_saved]
      exact rfl
    · rfl

theorem save_saved_le (o : TickO) (b : BotS) : b.saved ≤ (save o b).saved := by
  rcases hsp : savePrep o b with ⟨b2, dir⟩
  have hpf : b2.saved = b.saved := by
    have h := (savePrep_fields o b).1
    rw [hsp] at h
    exact h
  unfold save
  rw [hsp]
  cases dir with
  | none =>
    show b.saved ≤ (saveNoDirTransition b2).saved
    unfold saveNoDirTransition
    split
    · show b.saved ≤ b2.saved
      omega
    · show b.saved ≤ b2.saved
      omega
  | some dir =>
    show b.saved ≤ (match o.putFn b2 .Coin b2.coins dir with
      | some r => saveTransition (saveDeposit b2 (closest_bank b.free b.pos) r)
      | none => b2).saved
    cases o.putFn b2 .Coin b2.coins dir with
    | none =>
      show b.saved ≤ b2.saved
      omega
    | some r =>
      show b.saved ≤ (saveTransition (saveDeposit b2 (closest_bank b.free b.pos) r)).saved
      have hT := (saveTransition_fields (saveDeposit b2 (closest_bank b.free b.pos) r)).1
      rw [hT, saveDeposit_saved, hpf]
      omega

theorem dispatch_saved_le (o : TickO) (b : BotS) : b.saved ≤ (dispatch o b).saved := by
  unfold dispatch
  cases b.state with
  | CoinCollecting =>
    show b.saved ≤ (coin_collect o b).saved
    rw [coin_collect_saved]
  | RockCollecting =>
    show b.saved ≤ ((rock_collect o b).1).saved
    rw [rock_collect_saved]
  | Finish =>
    show b.saved ≤ (finish o b).saved
    rw [finish_saved]
  | Saving => exact save_saved_le o b
  | Enjoying => exact Nat.le_refl _
  | Trading =>
    show b.saved ≤ (trade o b).saved
    rw [trade_saved]
  | BankSearching =>
    show b.saved ≤ (search_for_bank o b).saved
    rw [search_for_bank_saved]

theorem tick_saved_le (o : TickO) (b : BotS) : b.saved ≤ (tick o b).saved := by
  unfold tick
  simp only []
  have hsd : (destroy_area o
      { b with free := look_for_unknown_banks (o.window b) b.pos.1 b.pos.2 b.free }).saved
      = b.saved := by
    rw [destroy_area_saved]
  split
  · rw [hsd]
  · exact Nat.le_trans (Nat.le_of_eq hsd.symm) (dispatch_saved_le o _)

/-- C9: the total-saved counter is monotonically non-decreasing across any
sequence of ticks — no controller operation ever decreases it (the only
write is the accumulation `saved += accepted` of the Saving handler). -/
theorem saved_monotone (os : List TickO) (b : BotS) :
    b.saved ≤ (os.foldl (fun s o => tick o s) b).saved := by
  induction os generalizing b with
  | nil => exact Nat.le_refl _
  | cons o t ih => exact Nat.le_trans (tick_saved_le o b) (ih (tick o b))

end SaverBot
